import Mathlib

/-!
Verification development for the timeweaver_webapp repository.

The file shallowly embeds the JavaScript admin-dashboard scheduler
(`generateTimetable` and `saveRoom` in the unnamed admin script) and the
Express authentication service (`server.js`).  JS numbers produced by
`Math.random()` are modelled as rationals supplied by an explicit stream
(a `List Rat` consumed in call order, reading 0 once exhausted); the
`Date.now()` clock is a natural-number parameter.  Strings are Lean
strings; the source field `section` is spelled `sec` because `section`
is a Lean keyword.
-/

unseal Rat.mul Rat.add Rat.ofScientific

/-- Filter criteria read from the admin form by `getFilterCriteria`. -/
structure Criteria where
  year : String
  program : String
  dept : String
  sem : String
  sec : String
deriving DecidableEq, Inhabited

/-- A faculty record from the admin data layer (`timeWeaver_faculty`). -/
structure Faculty where
  id : Nat
  name : String
  dept : String
  role : String
  subject : String
  current : Int
  max : Int
deriving DecidableEq, Inhabited

/-- A room record from the admin data layer (`timeWeaver_rooms`); the JS
`features` object is flattened into the three boolean fields. -/
structure Room where
  id : Nat
  building : String
  number : String
  fullName : String
  type : String
  capacity : Int
  hasProjector : Bool
  hasLab : Bool
  hasAC : Bool
deriving DecidableEq, Inhabited

/-- One stored timetable entry (`timeWeaver_timetable`).  The JS `id`
field is `Date.now() + Math.random()`, hence a rational here.  Source
field `section` is spelled `sec`. -/
structure Entry where
  id : Rat
  day : String
  time : String
  subject : String
  faculty : String
  room : String
  dept : String
  sem : String
  sec : String
  program : String
  year : String
deriving DecidableEq, Inhabited

/-- The criteria match used by `generateTimetable` when it removes
existing entries: `t.dept === dept && t.sem === sem && t.section === section`. -/
def matchesCriteria (c : Criteria) (t : Entry) : Bool :=
  t.dept == c.dept && t.sem == c.sem && t.sec == c.sec

/-- The seven time labels hard-coded in `generateTimetable`. -/
def genTimes : List String :=
  ["09:00", "10:00", "11:00", "12:00", "01:00", "02:00", "03:00"]

/-- The five day labels hard-coded in `generateTimetable`. -/
def genDays : List String :=
  ["Monday", "Tuesday", "Wednesday", "Thursday", "Friday"]

/-- The subject pool hard-coded in `generateTimetable`. -/
def genSubjects : List String :=
  ["Data Structures", "Algorithms", "Database Systems", "OS", "Networks",
   "AI/ML", "Cloud Computing"]

/-- The 35 (day, time) cells visited by the nested
`days.forEach(day => times.forEach(time => ...))` loops, in source order. -/
def genCellList : List (String × String) :=
  genDays.flatMap (fun d => genTimes.map (fun t => (d, t)))

/-- `Math.floor(r * n)` for an array index, as used on every random pick. -/
def floorIdx (r : Rat) (n : Nat) : Nat :=
  (Int.floor (r * (n : Rat))).toNat

/-- `parseInt` on the semester string; the model assumes a decimal
numeral (the admin form supplies one), so the JS NaN case is out of
scope here. -/
def parseIntD (str : String) : Nat :=
  str.toNat?.getD 0

/-- Builds the object pushed by `generateTimetable` for one grid cell;
`rid` is the `Math.random()` summand of `id: Date.now() + Math.random()`. -/
def mkEntry (c : Criteria) (day time subject faculty room : String)
    (now : Nat) (rid : Rat) : Entry :=
  { id := (now : Rat) + rid, day := day, time := time, subject := subject,
    faculty := faculty, room := room, dept := c.dept, sem := c.sem,
    sec := c.sec, program := c.program, year := c.year }

/-- The body of the inner `times.forEach` loop of `generateTimetable`
for one (day, time) cell.  The stream indices follow the source order of
the `Math.random()` calls: index 0 is the 80% existence test
(`Math.random() > 0.2`), index 1 the subject pick, then the faculty pick
(only when the department has faculty, exactly as the JS ternary only
evaluates its taken branch), then the room pick (one call in either
branch of the room ternary), then the `id` summand.  The returned stream
drops exactly the consumed values. -/
def genCell (c : Criteria) (facultyData : List Faculty) (roomData : List Room)
    (now : Nat) (day time : String) (s : List Rat) : Option Entry × List Rat :=
  if s.getD 0 0 > (0.2 : Rat) then
    let subject := genSubjects.getD (floorIdx (s.getD 1 0) genSubjects.length) ""
    let deptFaculty := facultyData.filter (fun f => f.dept == c.dept)
    let relevantRooms := roomData.filter (fun r => r.type == "classroom")
    if deptFaculty.length > 0 then
      let assignedFaculty :=
        (deptFaculty.getD (floorIdx (s.getD 2 0) deptFaculty.length) default).name
      if relevantRooms.length > 0 then
        (some (mkEntry c day time subject assignedFaculty
          ((relevantRooms.getD (floorIdx (s.getD 3 0) relevantRooms.length)
            default).fullName) now (s.getD 4 0)), s.drop 5)
      else
        (some (mkEntry c day time subject assignedFaculty
          ("R-" ++ toString (100 + parseIntD c.sem * 10 + floorIdx (s.getD 3 0) 5))
          now (s.getD 4 0)), s.drop 5)
    else
      if relevantRooms.length > 0 then
        (some (mkEntry c day time subject "TBA"
          ((relevantRooms.getD (floorIdx (s.getD 2 0) relevantRooms.length)
            default).fullName) now (s.getD 3 0)), s.drop 4)
      else
        (some (mkEntry c day time subject "TBA"
          ("R-" ++ toString (100 + parseIntD c.sem * 10 + floorIdx (s.getD 2 0) 5))
          now (s.getD 3 0)), s.drop 4)
  else (none, s.drop 1)

/-- Runs `genCell` over a list of cells in order, threading the random
stream and concatenating the pushed entries. -/
def genCells (c : Criteria) (fac : List Faculty) (rooms : List Room) (now : Nat) :
    List (String × String) → List Rat → List Entry × List Rat
  | [], s => ([], s)
  | cell :: rest, s =>
    let head := genCell c fac rooms now cell.1 cell.2 s
    let tail := genCells c fac rooms now rest head.2
    (head.1.toList ++ tail.1, tail.2)

/-- The entries a single `generateTimetable` run pushes for its criteria. -/
def newEntries (c : Criteria) (fac : List Faculty) (rooms : List Room)
    (s : List Rat) (now : Nat) : List Entry :=
  (genCells c fac rooms now genCellList s).1

/-- `generateTimetable(mode)` after the operator confirms: it drops the
stored entries matching the criteria, regenerates the 5x7 grid at
random, and stores the result (the returned list is what is written back
to `timeWeaver_timetable`). -/
def generateTimetable (c : Criteria) (fac : List Faculty) (rooms : List Room)
    (stored : List Entry) (s : List Rat) (now : Nat) : List Entry :=
  stored.filter (fun t => !(matchesCriteria c t)) ++ newEntries c fac rooms s now

/-- The (day, time) grid cell an entry occupies. -/
def cellOf (e : Entry) : String × String := (e.day, e.time)

/-- Two entries double-book a room when they name the same room in the
same (day, time) slot. -/
def roomSlotClash (a b : Entry) : Bool :=
  a.room == b.room && a.day == b.day && a.time == b.time

/-- Two entries double-book a faculty member when they name the same
faculty in the same (day, time) slot. -/
def facultySlotClash (a b : Entry) : Bool :=
  a.faculty == b.faculty && a.day == b.day && a.time == b.time

/-- Whether some pair of distinct positions in the list satisfies the
clash predicate. -/
def hasClash (p : Entry → Entry → Bool) : List Entry → Bool
  | [] => false
  | e :: t => t.any (p e) || hasClash p t

/-- Whether all entries in the list occupy pairwise distinct (day, time)
cells. -/
def distinctCells : List Entry → Bool
  | [] => true
  | e :: t => !(t.any (fun b => cellOf e == cellOf b)) && distinctCells t

/-- Form input to `saveRoom`; `capacity` is the `parseInt` result, with
`none` standing for the JS `NaN` on non-numeric input. -/
structure RoomInput where
  building : String
  number : String
  type : String
  capacity : Option Int
  hasProjector : Bool
  hasLab : Bool
  hasAC : Bool
deriving DecidableEq, Inhabited

/-- JS truthiness of a string: the empty string is falsy. -/
def truthyStr (str : String) : Bool := str != ""

/-- JS truthiness of the parsed capacity: `NaN` and `0` are falsy,
every other number (negative ones included) is truthy. -/
def truthyNum (v : Option Int) : Bool :=
  match v with
  | none => false
  | some n => n != 0

/-- `saveRoom` from the admin script: it alerts and leaves the stored
list unchanged when building, number or capacity is falsy, otherwise it
appends the new room (`roomData.push(newRoom)`); `now` models the
`Date.now()` id. -/
def saveRoom (inp : RoomInput) (now : Nat) (roomData : List Room) : List Room :=
  if !truthyStr inp.building || !truthyStr inp.number || !truthyNum inp.capacity then
    roomData
  else
    let newRoom : Room :=
      { id := now, building := inp.building, number := inp.number,
        fullName := inp.building ++ " - " ++ inp.number, type := inp.type,
        capacity := inp.capacity.getD 0, hasProjector := inp.hasProjector,
        hasLab := inp.hasLab, hasAC := inp.hasAC }
    roomData ++ [newRoom]

/-- A row of the `users` table (`schema.sql`). -/
structure UserRow where
  id : Nat
  username : String
  passwordHash : String
  role : String
  fullName : String
deriving DecidableEq, Inhabited

/-- Model of the external bcrypt library: hashing is an injective tag on
the password (the real salt only affects the hash text, not which
comparisons succeed). -/
def bcryptHash (password : String) : String := "bcrypt$" ++ password

/-- Model of `bcrypt.compare`: succeeds exactly on a stored hash of the
given password. -/
def bcryptCompare (password hash : String) : Bool := hash == bcryptHash password

/-- The JS regex class `\s` for the characters this model covers
(space, tab, line feed, carriage return, vertical tab, form feed). -/
def jsWhitespaceB (ch : Char) : Bool :=
  ch == ' ' || ch == '\t' || ch == '\n' || ch == '\r' || ch == '\x0b' || ch == '\x0c'

/-- `String.prototype.toLowerCase` restricted to ASCII letters, which is
all the admin form feeds it. -/
def toLowerString (str : String) : String := String.mk (str.data.map Char.toLower)

/-- `replace(/\s+/g, ZZ)` with an empty replacement: each maximal run of
whitespace is matched and deleted, mirroring the greedy regex. -/
def replaceWsRuns : List Char → List Char
  | [] => []
  | ch :: t =>
    if jsWhitespaceB ch then replaceWsRuns (t.dropWhile jsWhitespaceB)
    else ch :: replaceWsRuns t
termination_by l => l.length
decreasing_by
  · simp only [List.length_cons]
    have h : (t.dropWhile jsWhitespaceB).length ≤ t.length := by
      induction t with
      | nil => simp
      | cons a l ih =>
        rw [List.dropWhile_cons]
        split
        · exact Nat.le_trans ih (Nat.le_succ _)
        · exact Nat.le_refl _
    omega
  · simp only [List.length_cons]
    omega

/-- The username generated by the create-user endpoint:
`name.toLowerCase().replace(/\s+/g, ZZ)` with an empty replacement. -/
def genUsername (name : String) : String :=
  String.mk (replaceWsRuns (toLowerString name).data)

/-- The wording of the claim: the name lowercased with all whitespace
characters removed. -/
def strippedLower (name : String) : String :=
  String.mk ((name.data.map Char.toLower).filter (fun ch => !jsWhitespaceB ch))

/-- Responses of `POST /api/admin/create-user`. -/
inductive CreateUserResponse where
  | badRequest
  | conflict
  | created (username password : String) (id : Nat)
deriving DecidableEq

/-- The create-user endpoint: 400 on a missing field, 409 when the
generated username collides with an existing row (the unique constraint
of `schema.sql`), otherwise 201 returning `generatedCredentials` and
inserting the row; `nextId` models the SERIAL id. -/
def createUser (db : List UserRow) (name role dob : String) (nextId : Nat) :
    CreateUserResponse × List UserRow :=
  if name == "" || role == "" || dob == "" then (.badRequest, db)
  else
    let username := genUsername name
    let password := dob
    if db.any (fun u => u.username == username) then (.conflict, db)
    else (.created username password nextId,
      db ++ [{ id := nextId, username := username, passwordHash := bcryptHash password,
               role := role, fullName := name }])

/-- Responses of `POST /api/auth/login`; the success body carries
exactly the four fields the handler serializes (`id`, `username`,
`role`, `name`), so the stored hash cannot appear in it. -/
inductive LoginResponse where
  | unauthorized
  | ok (id : Nat) (username role name : String)
deriving DecidableEq

/-- The SQL row predicate `username = $1 AND role = $2`. -/
def loginMatch (username role : String) (u : UserRow) : Bool :=
  u.username == username && u.role == role

/-- The login endpoint: the first matching row (the username column is
unique, so at most one exists) is checked with `bcrypt.compare`; both
the no-row case and the failed comparison return the same 401 body. -/
def login (db : List UserRow) (username password role : String) : LoginResponse :=
  match db.find? (loginMatch username role) with
  | none => .unauthorized
  | some u =>
    if bcryptCompare password u.passwordHash then
      .ok u.id u.username u.role u.fullName
    else .unauthorized

/-- Shared concrete criteria for the concrete-input theorems below. -/
def demoCriteria : Criteria :=
  { year := "2025", program := "B.Tech", dept := "CS", sem := "3", sec := "A" }

/-- A CS faculty record. -/
def demoFaculty : Faculty :=
  { id := 1, name := "Dr. A", dept := "CS", role := "Professor",
    subject := "Networks", current := 0, max := 18 }

/-- A classroom with capacity 50. -/
def demoRoom : Room :=
  { id := 5, building := "B", number := "101", fullName := "B - 101",
    type := "classroom", capacity := 50,
    hasProjector := false, hasLab := false, hasAC := false }

/-- A random stream that makes exactly the first grid cell (Monday,
09:00) receive a class and picks index 0 everywhere: value 0.5 passes
the `> 0.2` existence test, the zeros select subject, faculty, room and
id summand, and the exhausted stream reads 0 afterwards, failing the
existence test for the remaining 34 cells. -/
def activeCellStream : List Rat := [0.5, 0, 0, 0, 0]

/-- A stream activating the first three cells (Monday 09:00, 10:00 and
11:00), each with index-0 picks. -/
def threeCellStream : List Rat :=
  [0.5, 0, 0, 0, 0, 0.5, 0, 0, 0, 0, 0.5, 0, 0, 0, 0]

/-- A pre-existing stored entry of another department (EE) occupying
room `B - 101` with `Dr. A` on Monday 09:00. -/
def c1OldEntry : Entry :=
  { id := 0, day := "Monday", time := "09:00", subject := "Old Subject",
    faculty := "Dr. A", room := "B - 101", dept := "EE", sem := "3",
    sec := "A", program := "B.Tech", year := "2025" }

/-- A CS faculty member whose weekly maximum is 2 hours. -/
def c5Faculty : Faculty :=
  { id := 2, name := "Dr. B", dept := "CS", role := "Professor",
    subject := "Algorithms", current := 0, max := 2 }

/-- Classroom with the lowest id in the C7 pool. -/
def c7RoomA : Room :=
  { id := 1, building := "A", number := "101", fullName := "A - 101",
    type := "classroom", capacity := 60,
    hasProjector := false, hasLab := false, hasAC := false }

/-- Classroom with the higher id in the C7 pool. -/
def c7RoomB : Room :=
  { id := 2, building := "A", number := "102", fullName := "A - 102",
    type := "classroom", capacity := 60,
    hasProjector := false, hasLab := false, hasAC := false }

/-- A stream activating only the first cell and picking room index 1
(value 0.5 with two candidate rooms gives floor(0.5 * 2) = 1). -/
def c7Stream : List Rat := [0.5, 0, 0, 0.5, 0]

/-- The entry the C7 run commits, used by the witness below. -/
def c7Entry : Entry :=
  { id := 1000, day := "Monday", time := "09:00", subject := "Data Structures",
    faculty := "Dr. A", room := "A - 102", dept := "CS", sem := "3",
    sec := "A", program := "B.Tech", year := "2025" }

/-- A saveRoom input with negative capacity: `parseInt` gives -5, which
is truthy in JS. -/
def c6NegInput : RoomInput :=
  { building := "B", number := "7", type := "classroom", capacity := some (-5),
    hasProjector := false, hasLab := false, hasAC := false }

/-- A saveRoom input with capacity 0, which is falsy in JS. -/
def c6ZeroInput : RoomInput :=
  { building := "B", number := "7", type := "classroom", capacity := some 0,
    hasProjector := false, hasLab := false, hasAC := false }

/-- A stored user row matching the credentials generated for John Doe,
used by the login witness. -/
def c9Row : UserRow :=
  { id := 1, username := "johndoe", passwordHash := bcryptHash "2000-01-01",
    role := "faculty", fullName := "John Doe" }

/-- Reading past the end of the stream yields the default 0. -/
theorem qGetD_nil (i : Nat) : ([] : List Rat).getD i 0 = 0 := by
  simp [List.getD]

/-- Unfolding one cons cell of a stream read. -/
theorem qGetD_cons_succ (a : Rat) (t : List Rat) (i : Nat) :
    (a :: t).getD (i + 1) 0 = t.getD i 0 := by
  simp [List.getD]

/-- Reading a dropped stream is reading the original at a shifted index. -/
theorem qGetD_drop (m : Nat) : ∀ (s : List Rat) (i : Nat),
    (s.drop m).getD i 0 = s.getD (m + i) 0 := by
  induction m with
  | zero => intro s i; simp
  | succ m ih =>
    intro s i
    cases s with
    | nil => simp [List.getD]
    | cons a t =>
      show (t.drop m).getD i 0 = (a :: t).getD (m + 1 + i) 0
      rw [ih t i]
      have h : m + 1 + i = (m + i) + 1 := by omega
      rw [h, qGetD_cons_succ]

/-- Reading a truncated stream within the kept range is reading the
original. -/
theorem qGetD_take : ∀ (s : List Rat) (k i : Nat), i < k →
    (s.take k).getD i 0 = s.getD i 0 := by
  intro s
  induction s with
  | nil => intro k i _; simp
  | cons a t ih =>
    intro k i hik
    cases k with
    | zero => omega
    | succ k =>
      cases i with
      | zero => simp [List.getD]
      | succ i =>
        rw [List.take_succ_cons, qGetD_cons_succ, qGetD_cons_succ]
        exact ih k i (by omega)

/-- Two streams agree on their first `k` reads. -/
def agreeUpTo (k : Nat) (s₁ s₂ : List Rat) : Prop :=
  ∀ i, i < k → s₁.getD i 0 = s₂.getD i 0

/-- Dropping at most five values from streams that agree five reads
beyond `k` leaves streams that agree on `k` reads. -/
theorem agreeUpTo_drop {k : Nat} {s₁ s₂ : List Rat} (m : Nat) (hm : m ≤ 5)
    (h : agreeUpTo (k + 5) s₁ s₂) : agreeUpTo k (s₁.drop m) (s₂.drop m) := by
  intro i hi
  rw [qGetD_drop, qGetD_drop]
  exact h (m + i) (by omega)

/-- One grid cell reads at most five random values: on streams agreeing
five reads beyond `k`, it produces the same optional entry and leaves
streams agreeing on `k` reads. -/
theorem genCell_agree (c : Criteria) (fac : List Faculty) (rooms : List Room)
    (now : Nat) (day time : String) {k : Nat} {s₁ s₂ : List Rat}
    (h : agreeUpTo (k + 5) s₁ s₂) :
    (genCell c fac rooms now day time s₁).1 = (genCell c fac rooms now day time s₂).1 ∧
      agreeUpTo k (genCell c fac rooms now day time s₁).2
        (genCell c fac rooms now day time s₂).2 := by
  have e0 := h 0 (by omega)
  have e1 := h 1 (by omega)
  have e2 := h 2 (by omega)
  have e3 := h 3 (by omega)
  have e4 := h 4 (by omega)
  simp only [genCell, e0, e1, e2, e3, e4]
  split_ifs
  · exact ⟨rfl, agreeUpTo_drop 5 (by omega) h⟩
  · exact ⟨rfl, agreeUpTo_drop 5 (by omega) h⟩
  · exact ⟨rfl, agreeUpTo_drop 4 (by omega) h⟩
  · exact ⟨rfl, agreeUpTo_drop 4 (by omega) h⟩
  · exact ⟨rfl, agreeUpTo_drop 1 (by omega) h⟩

/-- A cell sweep reads at most five random values per cell. -/
theorem genCells_agree (c : Criteria) (fac : List Faculty) (rooms : List Room)
    (now : Nat) :
    ∀ (cells : List (String × String)) (k : Nat) (s₁ s₂ : List Rat),
      agreeUpTo (5 * cells.length + k) s₁ s₂ →
      (genCells c fac rooms now cells s₁).1 = (genCells c fac rooms now cells s₂).1 ∧
        agreeUpTo k (genCells c fac rooms now cells s₁).2
          (genCells c fac rooms now cells s₂).2 := by
  intro cells
  induction cells with
  | nil =>
    intro k s₁ s₂ h
    exact ⟨rfl, by simpa using h⟩
  | cons cell rest ih =>
    intro k s₁ s₂ h
    have h5 : agreeUpTo ((5 * rest.length + k) + 5) s₁ s₂ := by
      have he : 5 * (cell :: rest).length + k = (5 * rest.length + k) + 5 := by
        simp [List.length_cons]
        ring
      rwa [he] at h
    obtain ⟨hhead, htail⟩ := genCell_agree c fac rooms now cell.1 cell.2 h5
    obtain ⟨hrest, hstream⟩ := ih k _ _ htail
    simp only [genCells]
    exact ⟨by rw [hhead, hrest], hstream⟩

/-- Fields of any entry a cell emits: its day and time are the cell
coordinates and its tag fields copy the criteria. -/
theorem genCell_fst_some (c : Criteria) (fac : List Faculty) (rooms : List Room)
    (now : Nat) (day time : String) (s : List Rat) (e : Entry)
    (h : (genCell c fac rooms now day time s).1 = some e) :
    e.day = day ∧ e.time = time ∧ e.dept = c.dept ∧ e.sem = c.sem ∧
      e.sec = c.sec ∧ e.program = c.program ∧ e.year = c.year := by
  simp only [genCell] at h
  by_cases h1 : s.getD 0 0 > (0.2 : Rat)
  · rw [if_pos h1] at h
    by_cases h2 : (fac.filter (fun f => f.dept == c.dept)).length > 0
    · rw [if_pos h2] at h
      by_cases h3 : (rooms.filter (fun r => r.type == "classroom")).length > 0
      · rw [if_pos h3] at h
        injection h with hh
        subst hh
        exact ⟨rfl, rfl, rfl, rfl, rfl, rfl, rfl⟩
      · rw [if_neg h3] at h
        injection h with hh
        subst hh
        exact ⟨rfl, rfl, rfl, rfl, rfl, rfl, rfl⟩
    · rw [if_neg h2] at h
      by_cases h3 : (rooms.filter (fun r => r.type == "classroom")).length > 0
      · rw [if_pos h3] at h
        injection h with hh
        subst hh
        exact ⟨rfl, rfl, rfl, rfl, rfl, rfl, rfl⟩
      · rw [if_neg h3] at h
        injection h with hh
        subst hh
        exact ⟨rfl, rfl, rfl, rfl, rfl, rfl, rfl⟩
  · rw [if_neg h1] at h
    exact Option.noConfusion h

/-- Every entry a cell sweep emits sits on one of the swept cells and
carries the criteria tags. -/
theorem genCells_mem (c : Criteria) (fac : List Faculty) (rooms : List Room)
    (now : Nat) :
    ∀ (cells : List (String × String)) (s : List Rat) (e : Entry),
      e ∈ (genCells c fac rooms now cells s).1 →
      cellOf e ∈ cells ∧ e.dept = c.dept ∧ e.sem = c.sem ∧ e.sec = c.sec := by
  intro cells
  induction cells with
  | nil => intro s e he; simp [genCells] at he
  | cons cell rest ih =>
    intro s e he
    simp only [genCells, List.mem_append] at he
    rcases he with he | he
    · have hsome : (genCell c fac rooms now cell.1 cell.2 s).1 = some e := by
        cases hopt : (genCell c fac rooms now cell.1 cell.2 s).1 with
        | none => rw [hopt] at he; simp [Option.toList] at he
        | some e2 =>
          rw [hopt] at he
          simp [Option.toList] at he
          rw [he]
      obtain ⟨hd, ht, hdept, hsem, hsec, _, _⟩ :=
        genCell_fst_some c fac rooms now cell.1 cell.2 s e hsome
      refine ⟨?_, hdept, hsem, hsec⟩
      have hcell : cellOf e = cell := by
        simp [cellOf, hd, ht]
      rw [hcell]
      exact List.mem_cons_self cell rest
    · obtain ⟨hc, h2⟩ := ih _ e he
      exact ⟨List.mem_cons_of_mem cell hc, h2⟩

/-- Sweeping pairwise distinct cells emits entries on pairwise distinct
cells: each cell is pushed at most once. -/
theorem genCells_pairwise (c : Criteria) (fac : List Faculty) (rooms : List Room)
    (now : Nat) :
    ∀ (cells : List (String × String)) (s : List Rat), cells.Nodup →
      ((genCells c fac rooms now cells s).1).Pairwise
        (fun a b => cellOf a ≠ cellOf b) := by
  intro cells
  induction cells with
  | nil => intro s _; simp [genCells]
  | cons cell rest ih =>
    intro s hnd
    rw [List.nodup_cons] at hnd
    simp only [genCells]
    rw [List.pairwise_append]
    refine ⟨?_, ih _ hnd.2, ?_⟩
    · cases hopt : (genCell c fac rooms now cell.1 cell.2 s).1 with
      | none => simp [Option.toList]
      | some e2 => simp [Option.toList]
    · intro a ha b hb
      have hsome : (genCell c fac rooms now cell.1 cell.2 s).1 = some a := by
        cases hopt : (genCell c fac rooms now cell.1 cell.2 s).1 with
        | none => rw [hopt] at ha; simp [Option.toList] at ha
        | some e2 =>
          rw [hopt] at ha
          simp [Option.toList] at ha
          rw [ha]
      obtain ⟨hd, ht, _, _, _, _, _⟩ :=
        genCell_fst_some c fac rooms now cell.1 cell.2 s a hsome
      have hacell : cellOf a = cell := by simp [cellOf, hd, ht]
      obtain ⟨hbcell, _⟩ := genCells_mem c fac rooms now rest _ b hb
      rw [hacell]
      intro heq
      rw [← heq] at hbcell
      exact hnd.1 hbcell

/-- The boolean distinct-cells check coincides with pairwise cell
distinctness. -/
theorem distinctCells_iff (l : List Entry) :
    distinctCells l = true ↔ l.Pairwise (fun a b => cellOf a ≠ cellOf b) := by
  induction l with
  | nil => simp [distinctCells]
  | cons e t ih =>
    simp [distinctCells, List.pairwise_cons, ih, List.any_eq_true, beq_iff_eq]

/-- Every freshly generated entry matches the criteria of its run. -/
theorem newEntries_matches (c : Criteria) (fac : List Faculty) (rooms : List Room)
    (s : List Rat) (now : Nat) :
    ∀ e ∈ newEntries c fac rooms s now, matchesCriteria c e = true := by
  intro e he
  obtain ⟨_, hdept, hsem, hsec⟩ := genCells_mem c fac rooms now genCellList s e he
  simp [matchesCriteria, hdept, hsem, hsec]

/-- Freshly generated entries occupy pairwise distinct grid cells. -/
theorem newEntries_pairwise (c : Criteria) (fac : List Faculty) (rooms : List Room)
    (s : List Rat) (now : Nat) :
    (newEntries c fac rooms s now).Pairwise (fun a b => cellOf a ≠ cellOf b) := by
  apply genCells_pairwise
  decide

/-- Every freshly generated entry sits on one of the 35 grid cells. -/
theorem newEntries_cells (c : Criteria) (fac : List Faculty) (rooms : List Room)
    (s : List Rat) (now : Nat) :
    ∀ e ∈ newEntries c fac rooms s now, cellOf e ∈ genCellList :=
  fun e he => (genCells_mem c fac rooms now genCellList s e he).1

/-- The part of the stored timetable not matching the criteria passes
through a run unchanged. -/
theorem gen_filter_not_matches (c : Criteria) (fac : List Faculty) (rooms : List Room)
    (stored : List Entry) (s : List Rat) (now : Nat) :
    (generateTimetable c fac rooms stored s now).filter
        (fun e => !(matchesCriteria c e))
      = stored.filter (fun e => !(matchesCriteria c e)) := by
  unfold generateTimetable
  rw [List.filter_append]
  have h1 : (stored.filter (fun e => !(matchesCriteria c e))).filter
      (fun e => !(matchesCriteria c e)) = stored.filter (fun e => !(matchesCriteria c e)) := by
    rw [List.filter_filter]
    congr 1
    funext a
    cases matchesCriteria c a <;> rfl
  have h2 : (newEntries c fac rooms s now).filter (fun e => !(matchesCriteria c e)) = [] := by
    rw [List.filter_eq_nil_iff]
    intro e he
    rw [newEntries_matches c fac rooms s now e he]
    simp
  rw [h1, h2, List.append_nil]

/-- The part of the stored timetable matching the criteria after a run
is exactly the freshly generated entries. -/
theorem gen_filter_matches (c : Criteria) (fac : List Faculty) (rooms : List Room)
    (stored : List Entry) (s : List Rat) (now : Nat) :
    (generateTimetable c fac rooms stored s now).filter (fun e => matchesCriteria c e)
      = newEntries c fac rooms s now := by
  unfold generateTimetable
  rw [List.filter_append]
  have h1 : (stored.filter (fun e => !(matchesCriteria c e))).filter
      (fun e => matchesCriteria c e) = [] := by
    rw [List.filter_eq_nil_iff]
    intro e he
    rw [List.mem_filter] at he
    rcases he with ⟨_, hne⟩
    simp only [Bool.not_eq_true'] at hne
    simp [hne]
  have h2 : (newEntries c fac rooms s now).filter (fun e => matchesCriteria c e)
      = newEntries c fac rooms s now :=
    List.filter_eq_self.2 (newEntries_matches c fac rooms s now)
  rw [h1, h2, List.nil_append]

/-- `Math.floor(r * n)` is a valid index whenever `r` lies in the range
of `Math.random()`. -/
theorem floorIdx_lt {r : Rat} {n : Nat} (h0 : 0 ≤ r) (h1 : r < 1) (hn : 0 < n) :
    floorIdx r n < n := by
  have hfl : Int.floor (r * (n : Rat)) < (n : Int) := by
    rw [Int.floor_lt]
    push_cast
    calc r * (n : Rat) < 1 * (n : Rat) := by
          exact mul_lt_mul_of_pos_right h1 (by exact_mod_cast hn)
      _ = (n : Rat) := one_mul _
  have hnn : 0 ≤ Int.floor (r * (n : Rat)) := by
    apply Int.floor_nonneg.2
    exact mul_nonneg h0 (by positivity)
  unfold floorIdx
  omega

/-- A cell leaves some suffix of its input stream. -/
theorem genCell_snd_drop (c : Criteria) (fac : List Faculty) (rooms : List Room)
    (now : Nat) (day time : String) (s : List Rat) :
    ∃ m, (genCell c fac rooms now day time s).2 = s.drop m := by
  simp only [genCell]
  split_ifs
  · exact ⟨5, rfl⟩
  · exact ⟨5, rfl⟩
  · exact ⟨4, rfl⟩
  · exact ⟨4, rfl⟩
  · exact ⟨1, rfl⟩

/-- Dropping a prefix preserves the `Math.random()` range condition. -/
theorem inRange_drop {s : List Rat} (m : Nat)
    (hs : ∀ i, 0 ≤ s.getD i 0 ∧ s.getD i 0 < 1) :
    ∀ i, 0 ≤ (s.drop m).getD i 0 ∧ (s.drop m).getD i 0 < 1 := by
  intro i
  rw [qGetD_drop]
  exact hs (m + i)

/-- An in-range defaulted lookup is a member of the list. -/
theorem getD_mem_of_lt {α : Type} [Inhabited α] (l : List α) (n : Nat) (d : α)
    (h : n < l.length) : l.getD n d ∈ l := by
  rw [List.getD_eq_getElem l d h]
  exact List.getElem_mem h

/-- Whatever one cell commits is drawn from the classroom-typed room
pool and the criteria department faculty pool whenever those pools are
nonempty, provided the stream values lie in the `Math.random()` range. -/
theorem genCell_selection (c : Criteria) (fac : List Faculty) (rooms : List Room)
    (now : Nat) (day time : String) (s : List Rat)
    (hs : ∀ i, 0 ≤ s.getD i 0 ∧ s.getD i 0 < 1) (e : Entry)
    (h : (genCell c fac rooms now day time s).1 = some e) :
    ((rooms.filter (fun r => r.type == "classroom")).length > 0 →
        e.room ∈ (rooms.filter (fun r => r.type == "classroom")).map Room.fullName) ∧
    ((fac.filter (fun f => f.dept == c.dept)).length > 0 →
        e.faculty ∈ (fac.filter (fun f => f.dept == c.dept)).map Faculty.name) := by
  simp only [genCell] at h
  by_cases h1 : s.getD 0 0 > (0.2 : Rat)
  · rw [if_pos h1] at h
    by_cases h2 : (fac.filter (fun f => f.dept == c.dept)).length > 0
    · rw [if_pos h2] at h
      by_cases h3 : (rooms.filter (fun r => r.type == "classroom")).length > 0
      · rw [if_pos h3] at h
        injection h with hh
        subst hh
        constructor
        · intro _
          apply List.mem_map_of_mem Room.fullName
          exact getD_mem_of_lt _ _ _ (floorIdx_lt (hs 3).1 (hs 3).2 h3)
        · intro _
          apply List.mem_map_of_mem Faculty.name
          exact getD_mem_of_lt _ _ _ (floorIdx_lt (hs 2).1 (hs 2).2 h2)
      · rw [if_neg h3] at h
        injection h with hh
        subst hh
        constructor
        · intro hlen
          exact absurd hlen h3
        · intro _
          apply List.mem_map_of_mem Faculty.name
          exact getD_mem_of_lt _ _ _ (floorIdx_lt (hs 2).1 (hs 2).2 h2)
    · rw [if_neg h2] at h
      by_cases h3 : (rooms.filter (fun r => r.type == "classroom")).length > 0
      · rw [if_pos h3] at h
        injection h with hh
        subst hh
        constructor
        · intro _
          apply List.mem_map_of_mem Room.fullName
          exact getD_mem_of_lt _ _ _ (floorIdx_lt (hs 2).1 (hs 2).2 h3)
        · intro hlen
          exact absurd hlen h2
      · rw [if_neg h3] at h
        injection h with hh
        subst hh
        exact ⟨fun hlen => absurd hlen h3, fun hlen => absurd hlen h2⟩
  · rw [if_neg h1] at h
    exact Option.noConfusion h

/-- The sweep-level version of the selection lemma. -/
theorem genCells_selection (c : Criteria) (fac : List Faculty) (rooms : List Room)
    (now : Nat) :
    ∀ (cells : List (String × String)) (s : List Rat),
      (∀ i, 0 ≤ s.getD i 0 ∧ s.getD i 0 < 1) →
      ∀ e ∈ (genCells c fac rooms now cells s).1,
        ((rooms.filter (fun r => r.type == "classroom")).length > 0 →
            e.room ∈ (rooms.filter (fun r => r.type == "classroom")).map Room.fullName) ∧
        ((fac.filter (fun f => f.dept == c.dept)).length > 0 →
            e.faculty ∈ (fac.filter (fun f => f.dept == c.dept)).map Faculty.name) := by
  intro cells
  induction cells with
  | nil => intro s _ e he; simp [genCells] at he
  | cons cell rest ih =>
    intro s hs e he
    simp only [genCells, List.mem_append] at he
    rcases he with he | he
    · have hsome : (genCell c fac rooms now cell.1 cell.2 s).1 = some e := by
        cases hopt : (genCell c fac rooms now cell.1 cell.2 s).1 with
        | none => rw [hopt] at he; simp [Option.toList] at he
        | some e2 =>
          rw [hopt] at he
          simp [Option.toList] at he
          rw [he]
      exact genCell_selection c fac rooms now cell.1 cell.2 s hs e hsome
    · obtain ⟨m, hm⟩ := genCell_snd_drop c fac rooms now cell.1 cell.2 s
      rw [hm] at he
      exact ih _ (inRange_drop m hs) e he

/-- Filtering the non-whitespace characters out of a dropped whitespace
run changes nothing. -/
theorem filter_dropWhile_not (l : List Char) :
    (l.dropWhile jsWhitespaceB).filter (fun ch => !jsWhitespaceB ch)
      = l.filter (fun ch => !jsWhitespaceB ch) := by
  induction l with
  | nil => rfl
  | cons a t ih =>
    rw [List.dropWhile_cons]
    by_cases hws : jsWhitespaceB a = true
    · rw [if_pos hws, ih, List.filter_cons]
      rw [hws]
      simp
    · rw [if_neg hws]

/-- Deleting each maximal whitespace run is the same as removing every
whitespace character. -/
theorem replaceWsRuns_eq_filter (l : List Char) :
    replaceWsRuns l = l.filter (fun ch => !jsWhitespaceB ch) := by
  induction l using replaceWsRuns.induct with
  | case1 => simp [replaceWsRuns]
  | case2 ch t hws ih =>
    rw [replaceWsRuns]
    rw [if_pos hws, ih, filter_dropWhile_not, List.filter_cons]
    rw [hws]
    simp
  | case3 ch t hws ih =>
    rw [replaceWsRuns]
    rw [if_neg hws, ih, List.filter_cons]
    simp only [Bool.not_eq_true] at hws
    rw [hws]
    simp

/-- The C7 witness stream lies in the `Math.random()` range. -/
theorem c7Stream_inRange : ∀ i, 0 ≤ c7Stream.getD i 0 ∧ c7Stream.getD i 0 < 1 := by
  intro i
  rcases i with _ | _ | _ | _ | _ | i
  · exact ⟨by decide, by decide⟩
  · exact ⟨by decide, by decide⟩
  · exact ⟨by decide, by decide⟩
  · exact ⟨by decide, by decide⟩
  · exact ⟨by decide, by decide⟩
  · have h5 : c7Stream.getD (i + 5) 0 = 0 := by
      simp [c7Stream, List.getD]
    rw [h5]
    exact ⟨le_refl 0, by decide⟩

/-- C1: the claim says no two assignments of a produced schedule share
the same (room, day/time) pair or (faculty, day/time) pair.  The code
violates it: starting from a stored timetable holding one EE entry in
room `B - 101` with `Dr. A` on Monday 09:00, a CS run whose random
stream activates the Monday 09:00 cell with index-0 picks stores a
second entry in the same room with the same faculty at the same slot,
so the stored schedule double-books both the room and the faculty. -/
theorem c1_double_booking_at_input :
    hasClash roomSlotClash (generateTimetable demoCriteria [demoFaculty] [demoRoom]
        [c1OldEntry] activeCellStream 1000) = true ∧
    hasClash facultySlotClash (generateTimetable demoCriteria [demoFaculty] [demoRoom]
        [c1OldEntry] activeCellStream 1000) = true := by
  decide

/-- C2 counterexample: two runs on identical entity lists, criteria and
clock but different `Math.random()` streams produce different outputs
(one entry versus none), refuting determinism of the generation
operation as a function of its input alone. -/
theorem c2_counterexample :
    (generateTimetable demoCriteria [demoFaculty] [demoRoom] [] activeCellStream 1000).length
        = 1 ∧
    (generateTimetable demoCriteria [demoFaculty] [demoRoom] [] [] 1000).length = 0 := by
  decide

/-- C2 amended: generation is deterministic only relative to the
ambient randomness and clock: the output of `generateTimetable` depends
on at most the first 5 * 35 = 175 values of the `Math.random()` stream,
so two runs with identical entity lists, criteria, clock and random
stream prefix produce identical output. -/
theorem c2_take_determinism (c : Criteria) (fac : List Faculty) (rooms : List Room)
    (stored : List Entry) (s : List Rat) (now : Nat) :
    generateTimetable c fac rooms stored s now
      = generateTimetable c fac rooms stored (s.take (5 * genCellList.length)) now := by
  unfold generateTimetable newEntries
  congr 1
  have hagree : agreeUpTo (5 * genCellList.length + 0) s (s.take (5 * genCellList.length)) := by
    intro i hi
    rw [qGetD_take s _ i (by omega)]
  exact (genCells_agree c fac rooms now genCellList 0 s _ hagree).1

/-- C3 counterexample: the Monday 09:00 session cell belongs to the
grid a run is asked to fill, yet the run whose stream fails every
existence test stores nothing at all; the output is only the entry
list, so the skipped cell is neither assigned nor recorded as unplaced
anywhere, refuting the accounting claim. -/
theorem c3_counterexample :
    ("Monday", "09:00") ∈ genCellList ∧
    generateTimetable demoCriteria [demoFaculty] [demoRoom] [] [] 1000 = [] := by
  decide

/-- C3 amended: every entry a run stores for its criteria occupies one
of the 35 grid cells and no cell is assigned twice; cells skipped by
the random existence test are silently omitted with no unplaced record,
so the assigned cell set is merely a subset of the grid, not exactly
equal to it. -/
theorem c3_accounting_amended (c : Criteria) (fac : List Faculty) (rooms : List Room)
    (s : List Rat) (now : Nat) :
    (newEntries c fac rooms s now).all (fun e => genCellList.contains (cellOf e)) = true ∧
    distinctCells (newEntries c fac rooms s now) = true := by
  constructor
  · rw [List.all_eq_true]
    intro e he
    have hmem := newEntries_cells c fac rooms s now e he
    exact List.elem_eq_true_of_mem hmem
  · exact (distinctCells_iff _).2 (newEntries_pairwise c fac rooms s now)

/-- C4: the claim says a cohort never lands in a room smaller than its
enrollment and is reported unplaced instead.  The code never reads
room capacity (nor any enrollment count): with the only available room
a capacity-50 classroom, the run assigns that room anyway, and its
output has no unplaced component at all. -/
theorem c4_capacity_ignored_at_input :
    demoRoom.capacity = 50 ∧
    (generateTimetable demoCriteria [] [demoRoom] [] activeCellStream 1000).map Entry.room
      = [demoRoom.fullName] := by
  decide

/-- C5: the claim says a faculty member with a hard 2-hour weekly limit
gets exactly 2 of 3 feasible one-hour sessions and 1 unplaced.  The
code never consults the `max` field: with `Dr. B` (max 2) the run
assigns all 3 one-hour sessions to them and reports nothing unplaced. -/
theorem c5_workload_exceeded_at_input :
    ((generateTimetable demoCriteria [c5Faculty] [demoRoom] [] threeCellStream 1000).countP
        (fun e => e.faculty == c5Faculty.name)) = 3 ∧
    c5Faculty.max = 2 := by
  decide

/-- C6 counterexample: a room-creation input with capacity -5 (a
non-positive capacity) is accepted and appended to the stored list,
because the JS guard `!capacity` only rejects falsy values (0 and NaN);
the claim says every capacity at most 0 is rejected with the list left
unchanged. -/
theorem c6_negative_capacity_accepted :
    c6NegInput.capacity = some (-5) ∧ (saveRoom c6NegInput 1 []).length = 1 := by
  decide

/-- C6 amended: `saveRoom` leaves the stored room list unchanged
exactly when a required field is falsy; for the capacity field that
means the `parseInt` result 0 or NaN, while negative capacities pass
the guard.  Rejection is an alert, not a ValidationError. -/
theorem c6_zero_capacity_rejected (inp : RoomInput) (now : Nat) (data : List Room)
    (h : inp.capacity = some 0 ∨ inp.capacity = none) :
    saveRoom inp now data = data := by
  unfold saveRoom
  have hcap : truthyNum inp.capacity = false := by
    rcases h with h | h <;> rw [h] <;> rfl
  rw [hcap]
  simp

/-- C6 witness: the theorem applied to a concrete capacity-0 input over
an empty stored list. -/
theorem c6_witness : saveRoom c6ZeroInput 1 [] = [] :=
  c6_zero_capacity_rejected c6ZeroInput 1 [] (Or.inl rfl)

/-- C7 counterexample: with two equally acceptable classrooms (the code
assigns no penalties, so all candidates tie) of ids 1 and 2, the run
whose room pick reads 0.5 commits the id-2 room `A - 102`; the claimed
tie-break requires the lowest room id, which is the id-1 room `A - 101`. -/
theorem c7_highest_id_room_committed :
    c7RoomA.id < c7RoomB.id ∧
    (generateTimetable demoCriteria [demoFaculty] [c7RoomA, c7RoomB] [] c7Stream 1000).map
        Entry.room
      = [c7RoomB.fullName] := by
  decide

/-- C7 amended: the scheduler follows no penalty or id tie-break
policy; the committed room and faculty are picked by random index, and
whenever the stream values lie in the `Math.random()` range [0, 1),
every committed room belongs to the classroom-typed pool (when one
exists) and every committed faculty to the criteria department's
faculty list (when one exists). -/
theorem c7_random_selection (c : Criteria) (fac : List Faculty) (rooms : List Room)
    (now : Nat) (s : List Rat) (hs : ∀ i, 0 ≤ s.getD i 0 ∧ s.getD i 0 < 1) :
    ∀ e ∈ newEntries c fac rooms s now,
      ((rooms.filter (fun r => r.type == "classroom")).length > 0 →
          e.room ∈ (rooms.filter (fun r => r.type == "classroom")).map Room.fullName) ∧
      ((fac.filter (fun f => f.dept == c.dept)).length > 0 →
          e.faculty ∈ (fac.filter (fun f => f.dept == c.dept)).map Faculty.name) :=
  fun e he => genCells_selection c fac rooms now genCellList s hs e he

/-- C7 witness: the theorem applied to the concrete C7 run and its
committed entry. -/
theorem c7_witness :
    c7Entry.room ∈ (([c7RoomA, c7RoomB]).filter
        (fun r => r.type == "classroom")).map Room.fullName ∧
    c7Entry.faculty ∈ (([demoFaculty]).filter
        (fun f => f.dept == demoCriteria.dept)).map Faculty.name := by
  have h := c7_random_selection demoCriteria [demoFaculty] [c7RoomA, c7RoomB] 1000 c7Stream
    c7Stream_inRange c7Entry (by decide)
  exact ⟨h.1 (by decide), h.2 (by decide)⟩

/-- C8: for every create-user request whose name, role and dob fields
are present (and whose generated username is not already taken, the
only other way the endpoint can answer), the returned credentials are
the name lowercased with all whitespace removed together with the dob
string verbatim as the password. -/
theorem c8_credentials (db : List UserRow) (name role dob : String) (nextId : Nat)
    (hn : name ≠ "") (hr : role ≠ "") (hd : dob ≠ "")
    (hu : ∀ u ∈ db, u.username ≠ genUsername name) :
    (createUser db name role dob nextId).1
      = CreateUserResponse.created (strippedLower name) dob nextId := by
  have hgen : genUsername name = strippedLower name := by
    unfold genUsername strippedLower toLowerString
    rw [replaceWsRuns_eq_filter]
  have hcond : ¬((name == "" || role == "" || dob == "") = true) := by
    simp [hn, hr, hd]
  have hany : ¬(db.any (fun u => u.username == genUsername name) = true) := by
    simp only [List.any_eq_true, beq_iff_eq]
    rintro ⟨u, hmem, hbeq⟩
    exact hu u hmem hbeq
  simp only [createUser]
  rw [if_neg hcond, if_neg hany]
  show CreateUserResponse.created (genUsername name) dob nextId
    = CreateUserResponse.created (strippedLower name) dob nextId
  rw [hgen]

/-- C8 witness: the theorem applied to the request (John Doe, faculty,
2000-01-01) over an empty user table. -/
theorem c8_witness :
    (createUser [] "John Doe" "faculty" "2000-01-01" 7).1
      = CreateUserResponse.created "johndoe" "2000-01-01" 7 := by
  have h := c8_credentials [] "John Doe" "faculty" "2000-01-01" 7 (by decide) (by decide)
    (by decide) (by intro u hu; simp at hu)
  rw [h]
  decide

/-- C9: the login endpoint answers 401 Invalid credentials in exactly
two cases: no user row matches the given (username, role), or the
bcrypt comparison fails on the first matching row; on success the body
is built from exactly the row's id, username, role and full name (the
response type has no hash component, so the stored password hash is
never returned). -/
theorem c9_login_behavior (db : List UserRow) (username password role : String) :
    (login db username password role = LoginResponse.unauthorized ↔
      (db.find? (loginMatch username role) = none ∨
        ∃ u, db.find? (loginMatch username role) = some u ∧
          bcryptCompare password u.passwordHash = false)) ∧
    (∀ u, db.find? (loginMatch username role) = some u →
      bcryptCompare password u.passwordHash = true →
      login db username password role
        = LoginResponse.ok u.id u.username u.role u.fullName) := by
  constructor
  · cases hf : db.find? (loginMatch username role) with
    | none => simp [login, hf]
    | some u =>
      by_cases hb : bcryptCompare password u.passwordHash = true
      · simp [login, hf, hb]
      · simp only [Bool.not_eq_true] at hb
        simp [login, hf, hb]
  · intro u hf hb
    simp [login, hf, hb]

/-- C9 witness: the success half of the theorem applied to a concrete
one-row table with the matching credentials. -/
theorem c9_witness :
    login [c9Row] "johndoe" "2000-01-01" "faculty"
      = LoginResponse.ok 1 "johndoe" "faculty" "John Doe" := by
  have h := (c9_login_behavior [c9Row] "johndoe" "2000-01-01" "faculty").2 c9Row
    (by decide) (by decide)
  exact h

/-- C10: a confirmed run is scoped to its criteria: the stored entries
not matching (dept, sem, section) pass through unchanged, the stored
entries matching the criteria afterwards are exactly the freshly
generated ones (every pre-existing matching entry is removed), and
those fresh entries occupy pairwise distinct (day, time) cells, so the
run adds at most one entry per cell for its criteria. -/
theorem c10_regeneration_frame (c : Criteria) (fac : List Faculty) (rooms : List Room)
    (stored : List Entry) (s : List Rat) (now : Nat) :
    (generateTimetable c fac rooms stored s now).filter
        (fun e => !(matchesCriteria c e))
      = stored.filter (fun e => !(matchesCriteria c e)) ∧
    (generateTimetable c fac rooms stored s now).filter (fun e => matchesCriteria c e)
      = newEntries c fac rooms s now ∧
    distinctCells ((generateTimetable c fac rooms stored s now).filter
        (fun e => matchesCriteria c e)) = true := by
  refine ⟨gen_filter_not_matches c fac rooms stored s now,
    gen_filter_matches c fac rooms stored s now, ?_⟩
  rw [gen_filter_matches c fac rooms stored s now]
  exact (distinctCells_iff _).2 (newEntries_pairwise c fac rooms s now)
